import Mathlib

/-!
# Verification of the Investment Portfolio Analyzer core

A shallow embedding of the repository's metrics, risk and caching layers
(`backend/services/portfolio_analysis.py`, `portfolio_analyzer.py`,
`risk_management.py`, `data_cache.py`) over exact rational arithmetic,
together with theorems settling the specification's claims.

Conventions:
* Python floats are modelled as `ℚ`; Python `round(x, 2)` (banker's
  rounding) is `round2`.
* A fallible Python division is `pyDiv`, returning `Except` so that an
  uncaught `ZeroDivisionError` is an `Except.error` value.
* Network access is modelled by a `PriceEnv`: for a `(symbol, period)`
  request it yields `none` (fetch failed / no data) or `some closes`
  (the fetched series of close prices, possibly empty).
-/

namespace Invest

/-- A holding, mirroring `api/models/portfolio.py` `Asset` (the fields the
analysis layer reads).  The pydantic model places no positivity
constraints on `quantity` or `purchase_price`. -/
structure Asset where
  symbol : String
  name : String
  quantity : ℚ
  purchase_price : ℚ
  asset_type : String
deriving DecidableEq

/-- The market-data provider: close-price series per (symbol, period);
`none` models a failed fetch. -/
abbrev PriceEnv := String → String → Option (List ℚ)

/-- An environment in which no live data is available for any symbol. -/
def noDataEnv : PriceEnv := fun _ _ => none

/-- Association-list lookup by decidable equality (Python dict read). -/
def lookupK {α β : Type} [DecidableEq α] : List (α × β) → α → Option β
  | [], _ => none
  | (k', v) :: rest, k => if k' = k then some v else lookupK rest k

/-- Python `d[k] = v`: replace the binding if present, else append. -/
def setKey {α β : Type} [DecidableEq α] : List (α × β) → α → β → List (α × β)
  | [], k, v => [(k, v)]
  | (k', v') :: rest, k, v => if k' = k then (k, v) :: rest else (k', v') :: setKey rest k v

/-- Python `d[k] = d.get(k, 0) + v` accumulation into a dict. -/
def upsert : List (String × ℚ) → String → ℚ → List (String × ℚ)
  | [], k, v => [(k, v)]
  | (k', v') :: rest, k, v =>
      if k' = k then (k', v' + v) :: rest else (k', v') :: upsert rest k v

/-- Python `round(x, 2)`: round half to even at two decimal places. -/
def round2 (x : ℚ) : ℚ :=
  let y := x * 100
  let f := ⌊y⌋
  let r := y - f
  let n : ℤ :=
    if r < 1/2 then f
    else if 1/2 < r then f + 1
    else if f % 2 = 0 then f else f + 1
  (n : ℚ) / 100

/-- Python division: raises `ZeroDivisionError` on a zero denominator. -/
def pyDiv (a b : ℚ) : Except String ℚ :=
  if b = 0 then .error "division by zero" else .ok (a / b)

/-- A Python `for` loop building a list, aborting at the first raised
exception. -/
def mapE {α β : Type} (f : α → Except String β) : List α → Except String (List β)
  | [] => .ok []
  | a :: as => do
      let b ← f a
      let bs ← mapE f as
      pure (b :: bs)

/-- `hist_data['Close'].iloc[-1]` guarded by
`hist_data is not None and not hist_data.empty`, else the fallback. -/
def latestClose : Option (List ℚ) → ℚ → ℚ
  | some (c :: cs), _ => (c :: cs).getLast (List.cons_ne_nil c cs)
  | some [], fb => fb
  | none, fb => fb

/-- The current price an analysis step uses for an asset: latest close of
the fetched series, falling back to the purchase price. -/
def currentPrice (env : PriceEnv) (a : Asset) (period : String) : ℚ :=
  latestClose (env a.symbol period) a.purchase_price

namespace PortfolioAnalysis

/-- `PortfolioAnalyzer.calculate_total_value` of
`services/portfolio_analysis.py`: accumulate `quantity * current_price`
over the assets, with purchase-price fallback. -/
def calculate_total_value (env : PriceEnv) (assets : List Asset) : ℚ :=
  assets.foldl (fun total a => total + a.quantity * currentPrice env a "1d") 0

/-- Loop body of `calculate_asset_allocation`: the asset's value (live
close or purchase-price fallback), its guarded percentage of the total,
accumulated into the per-type dict. -/
def allocStep (env : PriceEnv) (total : ℚ) (m : List (String × ℚ)) (a : Asset) :
    List (String × ℚ) :=
  let asset_value := a.quantity * currentPrice env a "1d"
  let percentage := if 0 < total then asset_value / total * 100 else 0
  upsert m a.asset_type percentage

/-- `PortfolioAnalyzer.calculate_asset_allocation`: empty dict when the
total is zero, else per-type percentage accumulation, rounded to two
decimals at the end. -/
def calculate_asset_allocation (env : PriceEnv) (assets : List Asset) :
    List (String × ℚ) :=
  let total := calculate_total_value env assets
  if total = 0 then []
  else (assets.foldl (allocStep env total) []).map (fun p => (p.1, round2 p.2))

/-- One entry of `calculate_portfolio_metrics`'s per-asset breakdown. -/
structure AssetMetric where
  symbol : String
  name : String
  value : ℚ
  percentage : ℚ
deriving DecidableEq

/-- Result of `calculate_portfolio_metrics` (purchase-price-only snapshot). -/
structure Metrics where
  total_value : ℚ
  asset_allocation : List (String × ℚ)
  number_of_assets : ℕ
  assets : List AssetMetric
deriving DecidableEq

/-- `PortfolioAnalyzer.calculate_portfolio_metrics`: valuation snapshot
using purchase prices only (no price fetch). -/
def calculate_portfolio_metrics (assets : List Asset) : Metrics :=
  let total := (assets.map (fun a => a.quantity * a.purchase_price)).sum
  let alloc :=
    ((assets.foldl (fun m a =>
        let asset_value := a.quantity * a.purchase_price
        let percentage := if 0 < total then asset_value / total * 100 else 0
        upsert m a.asset_type percentage) [])).map (fun p => (p.1, round2 p.2))
  { total_value := round2 total
    asset_allocation := alloc
    number_of_assets := assets.length
    assets := assets.map (fun a =>
      { symbol := a.symbol
        name := a.name
        value := round2 (a.quantity * a.purchase_price)
        percentage :=
          round2 (if 0 < total then a.quantity * a.purchase_price / total * 100 else 0) }) }

/-- Sample mean (`np.mean`). -/
def meanQ (l : List ℚ) : ℚ := l.sum / l.length

/-- Population variance (`np.var`, ddof 0). -/
def varPop (l : List ℚ) : ℚ :=
  ((l.map (fun x => (x - meanQ l) ^ 2)).sum) / l.length

/-- Sample covariance (`np.cov(a, b)[0][1]`, ddof 1). -/
def covSample (a b : List ℚ) : ℚ :=
  (((a.zip b).map (fun p => (p.1 - meanQ a) * (p.2 - meanQ b))).sum) / ((a.length : ℚ) - 1)

/-- `PortfolioAnalyzer._calculate_beta`: zero on empty inputs; `np.cov`
raising on mismatched lengths is caught by the bare `except` and mapped
to zero; zero market variance is guarded to zero. -/
def calculate_beta (pr mr : List ℚ) : ℚ :=
  if pr.length = 0 ∨ mr.length = 0 then 0
  else if pr.length ≠ mr.length then 0
  else if varPop mr ≠ 0 then covSample pr mr / varPop mr else 0

/-- `excess_returns = returns - risk_free_rate/252`. -/
def excessReturns (rs : List ℚ) (rf : ℚ) : List ℚ := rs.map (fun r => r - rf / 252)

/-- `PortfolioAnalyzer._calculate_sharpe_ratio`.  `np.sqrt` is not
rational, so the square root is an abstract parameter `sf`; the code's
`np.std(excess) != 0` guard is `sf (varPop excess) ≠ 0`. -/
def calculate_sharpe (rs : List ℚ) (rf : ℚ) (sf : ℚ → ℚ) : ℚ :=
  if rs.length = 0 then 0
  else
    let ex := excessReturns rs rf
    let sd := sf (varPop ex)
    if sd ≠ 0 then sf 252 * meanQ ex / sd else 0

/-- `PortfolioAnalyzer.generate_rebalancing_suggestions`' fixed target. -/
def targetAllocation : List (String × ℚ) := [("stock", 60), ("bond", 30), ("etf", 10)]

/-- One rebalancing suggestion record. -/
structure Suggestion where
  asset_type : String
  current_percentage : ℚ
  target_percentage : ℚ
  suggested_action : String
  adjustment_needed : ℚ
deriving DecidableEq

/-- Loop body of `generate_rebalancing_suggestions`:
`current = current_allocation.get(asset_type, 0.0)`,
`difference = target - current`, and append a suggestion when
`abs(difference) > 5`. -/
def rebalStep (current : List (String × ℚ)) (suggestions : List Suggestion)
    (p : String × ℚ) : List Suggestion :=
  let current_pct := (lookupK current p.1).getD 0
  let difference := p.2 - current_pct
  if 5 < |difference| then
    suggestions ++ [{ asset_type := p.1
                      current_percentage := round2 current_pct
                      target_percentage := p.2
                      suggested_action := if 0 < difference then "buy" else "sell"
                      adjustment_needed := round2 |difference| }]
  else suggestions

/-- `PortfolioAnalyzer.generate_rebalancing_suggestions`, taking the
current allocation dict as input: append a suggestion for each target
asset type whose absolute difference exceeds 5 percentage points. -/
def generate_rebalancing_suggestions (current : List (String × ℚ)) : List Suggestion :=
  targetAllocation.foldl (rebalStep current) []

/-- The value a holding contributes to the total: `quantity` times the
live-or-fallback current price of a 1-day fetch. -/
def valueOf (env : PriceEnv) (a : Asset) : ℚ :=
  a.quantity * currentPrice env a "1d"

/-- Combined value of the holdings of one asset type. -/
def typeValue (env : PriceEnv) (assets : List Asset) (t : String) : ℚ :=
  ((assets.filter (fun a => a.asset_type = t)).map (valueOf env)).sum

/-- Whether some holding has the given asset type. -/
def hasType (assets : List Asset) (t : String) : Bool :=
  assets.any (fun a => a.asset_type = t)

/-- Modelled from the spec: `totalValue(portfolio)` is the sum over
holdings of `quantity × currentPrice`, where `currentPrice` is the
latest close from a 1-day price fetch, falling back to `purchase_price`
if the fetch fails or returns an empty series. -/
def spec_totalValue (env : PriceEnv) (assets : List Asset) : ℚ :=
  (assets.map (fun a =>
    a.quantity *
      match env a.symbol "1d" with
      | some closes => closes.getLastD a.purchase_price
      | none => a.purchase_price)).sum

/-- Modelled from the spec: one optional suggestion per target type,
emitted exactly when the absolute difference between target and current
share exceeds 5 percentage points, buying when the current share is
below the target, with `adjustment_needed` the absolute difference. -/
def rebalItem (current : List (String × ℚ)) (p : String × ℚ) : Option Suggestion :=
  let c := (lookupK current p.1).getD 0
  let d := p.2 - c
  if 5 < |d| then
    some { asset_type := p.1
           current_percentage := round2 c
           target_percentage := p.2
           suggested_action := if c < p.2 then "buy" else "sell"
           adjustment_needed := round2 |d| }
  else none

/-- Modelled from the spec: emit a suggestion for exactly the target
types whose absolute difference to the current allocation exceeds 5
percentage points. -/
def spec_rebalancing (current : List (String × ℚ)) : List Suggestion :=
  targetAllocation.filterMap (rebalItem current)

end PortfolioAnalysis

/-- `Except.error`-ness of a fallible computation (an uncaught Python
exception). -/
def isErr {α : Type} : Except String α → Bool
  | .error _ => true
  | .ok _ => false

namespace AnalyzerLive

/-- One entry of `analyze_portfolio`'s asset breakdown
(`services/portfolio_analyzer.py`). -/
structure AssetInfo where
  symbol : String
  name : String
  quantity : ℚ
  current_price : ℚ
  purchase_price : ℚ
  gain_loss : ℚ
  value : ℚ
  allocation : ℚ
  asset_type : String
deriving DecidableEq

/-- Result of `PortfolioAnalyzer.analyze_portfolio`. -/
structure AnalysisResult where
  total_value : ℚ
  asset_allocations : List (String × ℚ)
  number_of_assets : ℕ
  assets : List AssetInfo
deriving DecidableEq

/-- Per-asset body of `analyze_portfolio`'s loop: live price with
purchase-price fallback, then the unguarded
`((current_price - purchase_price) / purchase_price) * 100`. -/
def assetStep (env : PriceEnv) (a : Asset) : Except String AssetInfo := do
  let cp := currentPrice env a "1d"
  let gl ← pyDiv (cp - a.purchase_price) a.purchase_price
  pure { symbol := a.symbol
         name := a.name
         quantity := a.quantity
         current_price := cp
         purchase_price := a.purchase_price
         gain_loss := gl * 100
         value := a.quantity * cp
         allocation := 0
         asset_type := a.asset_type }

/-- `PortfolioAnalyzer.analyze_portfolio` of
`services/portfolio_analyzer.py`.  The per-asset `allocation` is guarded
(`if total_value > 0 else 0`), but the asset-type allocation
comprehension `(v / total_value) * 100` is not. -/
def analyze_portfolio (env : PriceEnv) (assets : List Asset) :
    Except String AnalysisResult := do
  let infos ← mapE (assetStep env) assets
  let total := (infos.map (fun i => i.value)).sum
  let breakdown := infos.map (fun i =>
    { i with allocation := if 0 < total then i.value / total * 100 else 0 })
  let typeVals := infos.foldl (fun m i => upsert m i.asset_type i.value) []
  let allocs ← mapE (fun p => do
    let q ← pyDiv p.2 total
    pure (p.1, q * 100)) typeVals
  pure { total_value := total
         asset_allocations := allocs
         number_of_assets := breakdown.length
         assets := breakdown }

/-- `np.percentile` with the default linear interpolation at position
`h` of an ascending list (`0 ≤ h ≤ length - 1`). -/
def interpAt (xs : List ℚ) (h : ℚ) : ℚ :=
  let i := (⌊h⌋).toNat
  let a := xs.getD i 0
  let b := xs.getD (i + 1) a
  a + (h - ⌊h⌋) * (b - a)

/-- `np.percentile(xs, q)`: sort ascending, then linearly interpolate at
`q / 100 * (n - 1)`. -/
def percentileNp (xs : List ℚ) (q : ℚ) : ℚ :=
  let s := xs.insertionSort (· ≤ ·)
  interpAt s (q / 100 * ((s.length : ℚ) - 1))

/-- Core of `calculate_var` (both `portfolio_analyzer.py` and
`risk_management.py`): `abs(percentile(returns, (1 - c) * 100) * value)`
on the already-built portfolio return series. -/
def calculate_var_core (rets : List ℚ) (value c : ℚ) : ℚ :=
  |percentileNp rets ((1 - c) * 100) * value|

/-- Fixed 2% risk-free rate used by both engines. -/
def riskFreeRate : ℚ := 2/100

/-- One sampled portfolio of the efficient-frontier search. -/
structure SamplePortfolio where
  weights : List ℚ
  ret : ℚ
  risk : ℚ
deriving DecidableEq

/-- Dot product of two rational vectors. -/
def dotQ (a b : List ℚ) : ℚ := ((a.zip b).map (fun p => p.1 * p.2)).sum

/-- Matrix-vector product, rows as lists. -/
def matVec (m : List (List ℚ)) (v : List ℚ) : List ℚ := m.map (fun row => dotQ row v)

/-- Sharpe ratio of a sampled portfolio:
`(p["return"] - risk_free_rate) / p["risk"]`. -/
def sharpeOf (rf : ℚ) (p : SamplePortfolio) : ℚ := (p.ret - rf) / p.risk

/-- Python `max(xs, key=f)`: first element attaining the maximum key
(`none` on an empty list, where Python raises `ValueError`). -/
def maxByKey {α : Type} (f : α → ℚ) : List α → Option α
  | [] => none
  | x :: xs => some (xs.foldl (fun best y => if f best < f y then y else best) x)

/-- One sampled portfolio from a raw random draw: weights are the draw
normalised by its sum (`weights /= np.sum(weights)`), return is the
weighted mean return, risk is `sqrt(w · Σ · w)` with the abstract
square root `sf`. -/
def samplePortfolio (meanReturns : List ℚ) (cov : List (List ℚ)) (sf : ℚ → ℚ)
    (d : List ℚ) : SamplePortfolio :=
  let w := d.map (fun x => x / d.sum)
  { weights := w
    ret := dotQ meanReturns w
    risk := sf (dotQ w (matVec cov w)) }

/-- `PortfolioAnalyzer.calculate_efficient_frontier`: one sampled
portfolio per raw random draw (`np.random.random` vector); the optimal
portfolio maximises the Sharpe ratio over the samples. -/
def calculate_efficient_frontier (meanReturns : List ℚ) (cov : List (List ℚ))
    (sf : ℚ → ℚ) (draws : List (List ℚ)) :
    List SamplePortfolio × Option SamplePortfolio :=
  let samples := draws.map (samplePortfolio meanReturns cov sf)
  (samples, maxByKey (sharpeOf riskFreeRate) samples)

/-- A named flat-impact stress scenario of `run_stress_test`. -/
structure RunScenarioResult where
  scenario : String
  impact : ℚ
  portfolio_value : ℚ
  loss_amount : ℚ
  loss_percentage : ℚ
deriving DecidableEq

/-- The default scenario set of `run_stress_test`. -/
def defaultScenarios : List (String × ℚ) :=
  [("Market Crash", -(20/100)), ("Recession", -(10/100)),
   ("Interest Rate Hike", -(5/100)), ("Inflation Spike", -(15/100))]

/-- `PortfolioAnalyzer.run_stress_test`: revalue every holding under a
flat price shock and compare against the portfolio's stored
`total_value` field; the `loss_percentage` division by `total_value` is
unguarded. -/
def run_stress_test (env : PriceEnv) (assets : List Asset) (total_value : ℚ)
    (scenarios : List (String × ℚ)) : Except String (List RunScenarioResult) :=
  mapE (fun s => do
    let sv := assets.foldl (fun acc a =>
      acc + a.quantity * (currentPrice env a "1d" * (1 + s.2))) 0
    let lp ← pyDiv (sv - total_value) total_value
    pure { scenario := s.1
           impact := s.2
           portfolio_value := sv
           loss_amount := sv - total_value
           loss_percentage := lp * 100 }) scenarios

end AnalyzerLive

namespace RiskManagement

/-- `RiskManagement._calculate_portfolio_value`
(`services/risk_management.py`): same accumulation with purchase-price
fallback as the metrics engine's total value. -/
def portfolioValue (env : PriceEnv) (assets : List Asset) : ℚ :=
  assets.foldl (fun total a => total + a.quantity * currentPrice env a "1d") 0

/-- One scenario row of `RiskManagement.stress_test`. -/
structure ScenarioResult where
  scenario : List (String × ℚ)
  portfolio_value : ℚ
  change_percentage : ℚ
deriving DecidableEq

/-- Result of `RiskManagement.stress_test`. -/
structure StressResult where
  current_value : ℚ
  scenarios : List ScenarioResult
deriving DecidableEq

/-- `RiskManagement.stress_test`: each scenario maps symbols to
fractional price shocks; starting from the current value, add
`asset_value * price_change` for each shocked holding.  The
`change_percentage` division by `current_value` sits inside the
method's `try`, so a zero current value surfaces as an error result. -/
def stress_test (env : PriceEnv) (assets : List Asset)
    (scenarios : List (List (String × ℚ))) : Except String StressResult := do
  let cv := portfolioValue env assets
  let results ← mapE (fun scenario => do
    let sv := assets.foldl (fun acc a =>
      match lookupK scenario a.symbol with
      | some price_change => acc + a.quantity * a.purchase_price * price_change
      | none => acc) cv
    let chg ← pyDiv (sv - cv) cv
    pure { scenario := scenario
           portfolio_value := round2 sv
           change_percentage := round2 (chg * 100) }) scenarios
  pure { current_value := round2 cv, scenarios := results }

end RiskManagement

namespace DataCache

/-- `DataCache.min_request_interval` (seconds). -/
def minRequestInterval : ℚ := 1

/-- `DataCache.cache_duration` (5 minutes, in seconds). -/
def cacheDuration : ℚ := 300

/-- The store's mutable state: per-symbol last-request timestamps, the
on-disk cache keyed by `(symbol, period)` with the file's write time,
and a virtual wall clock advanced by sleeps. -/
structure CacheState where
  lastReq : List (String × ℚ)
  store : List ((String × String) × List ℚ × ℚ)
  now : ℚ
deriving DecidableEq

/-- Outcome of one `get_data` call: the new state, the returned series,
and the wall-clock time at which a network fetch was issued (`none` on a
cache hit). -/
structure GetResult where
  state : CacheState
  data : Option (List ℚ)
  fetchTime : Option ℚ
deriving DecidableEq

/-- The wall-clock time after the rate-limit sleep at the top of
`get_data`: if a prior request for the symbol is on record within
`min_request_interval`, the caller sleeps for the shortfall.
`current_time` is captured before the sleep. -/
def afterSleepTime (s : CacheState) (symbol : String) : ℚ :=
  match lookupK s.lastReq symbol with
  | some last =>
      if s.now - last < minRequestInterval then last + minRequestInterval else s.now
  | none => s.now

/-- The fetch branch of `get_data`: issue the fetch (modelled by the
oracle `fetchRes`, `none` for failure) at the post-sleep time; on a
non-empty frame, store it in the cache and record the pre-sleep
`current_time` — not the fetch time — as the symbol's last request
time. -/
def fetchOutcome (s : CacheState) (symbol period : String)
    (fetchRes : Option (List ℚ)) : GetResult :=
  match fetchRes with
  | some l =>
      if l ≠ [] then
        { state := { lastReq := setKey s.lastReq symbol s.now
                     store := setKey s.store (symbol, period) (l, afterSleepTime s symbol)
                     now := afterSleepTime s symbol }
          data := some l
          fetchTime := some (afterSleepTime s symbol) }
      else
        { state := { s with now := afterSleepTime s symbol }
          data := some l
          fetchTime := some (afterSleepTime s symbol) }
  | none =>
      { state := { s with now := afterSleepTime s symbol }
        data := none
        fetchTime := some (afterSleepTime s symbol) }

/-- `DataCache.get_data`: rate-limit sleep, then the on-disk cache is
consulted with the pre-sleep `current_time`; a hit younger than
`cache_duration` is returned with no fetch, anything else goes to the
fetch branch. -/
def get_data (s : CacheState) (symbol period : String)
    (fetchRes : Option (List ℚ)) : GetResult :=
  match lookupK s.store (symbol, period) with
  | some (data, mtime) =>
      if s.now - mtime < cacheDuration then
        { state := { s with now := afterSleepTime s symbol }
          data := some data
          fetchTime := none }
      else fetchOutcome s symbol period fetchRes
  | none => fetchOutcome s symbol period fetchRes

end DataCache

/-- The spec's example holding: `{symbol: "X", quantity: 10, purchase_price: 100}`. -/
def assetX : Asset := ⟨"X", "X", 10, 100, "stock"⟩

/-- A holding with zero quantity and nonzero purchase price: a legal
input (the pydantic model has no positivity bounds) whose portfolio
value is zero. -/
def zeroQtyAsset : Asset := ⟨"A", "A", 0, 100, "stock"⟩

/-- A holding with zero purchase price. -/
def zeroPriceAsset : Asset := ⟨"Z", "Z", 5, 0, "stock"⟩

/-! ## Helper lemmas -/

@[simp]
theorem isErr_ok {α : Type} (a : α) : isErr (Except.ok a) = false := rfl

@[simp]
theorem isErr_error {α : Type} (e : String) : isErr (Except.error e : Except String α) = true := rfl

@[simp]
theorem ok_bind {α β : Type} (a : α) (f : α → Except String β) :
    (Except.ok a >>= f) = f a := rfl

@[simp]
theorem error_bind {α β : Type} (e : String) (f : α → Except String β) :
    ((Except.error e : Except String α) >>= f) = Except.error e := rfl

@[simp]
theorem map_ok {α β : Type} (g : α → β) (a : α) :
    (g <$> (Except.ok a : Except String α)) = Except.ok (g a) := rfl

@[simp]
theorem map_error {α β : Type} (g : α → β) (e : String) :
    (g <$> (Except.error e : Except String α)) = Except.error e := rfl

@[simp]
theorem pure_except {α : Type} (a : α) : (pure a : Except String α) = Except.ok a := rfl

@[simp]
theorem mapE_nil {α β : Type} (f : α → Except String β) : mapE f [] = .ok [] := rfl

@[simp]
theorem mapE_cons {α β : Type} (f : α → Except String β) (a : α) (as : List α) :
    mapE f (a :: as) = (f a >>= fun b => mapE f as >>= fun bs => .ok (b :: bs)) := rfl

@[simp]
theorem lookupK_nil {α β : Type} [DecidableEq α] (k : α) :
    lookupK ([] : List (α × β)) k = none := rfl

@[simp]
theorem lookupK_cons {α β : Type} [DecidableEq α] (k' : α) (v : β) (rest : List (α × β)) (k : α) :
    lookupK ((k', v) :: rest) k = if k' = k then some v else lookupK rest k := rfl

/-- Accumulating `foldl` is the sum of the mapped list. -/
theorem foldl_add_sum {α : Type} (g : α → ℚ) :
    ∀ (l : List α) (c : ℚ), l.foldl (fun acc a => acc + g a) c = c + (l.map g).sum
  | [], c => by simp
  | a :: as, c => by
      rw [List.foldl_cons, foldl_add_sum g as (c + g a), List.map_cons, List.sum_cons]
      ring

/-- `latestClose` agrees with `getLastD` on fetched series. -/
theorem latestClose_eq (o : Option (List ℚ)) (fb : ℚ) :
    latestClose o fb = match o with
      | some closes => closes.getLastD fb
      | none => fb := by
  match o with
  | none => rfl
  | some [] => rfl
  | some (c :: cs) =>
      simp only [latestClose, List.getLastD_eq_getLast?,
        List.getLast?_eq_getLast (c :: cs) (List.cons_ne_nil c cs), Option.getD_some]

/-! ## C1: total value and the purchase-price-only metrics snapshot -/

/-- C1: for every portfolio, `calculate_total_value` is the sum over
holdings of `quantity × currentPrice`, with `currentPrice` the latest
close of a 1-day fetch when it yields a non-empty series and the
purchase price otherwise; on the spec's example holding
`{quantity: 10, purchase_price: 100}` with no live data the total is
1000 and the purchase-price-only metrics snapshot reports the asset's
value as 1000. -/
theorem c1_total_value :
    (∀ (env : PriceEnv) (assets : List Asset),
        PortfolioAnalysis.calculate_total_value env assets =
          PortfolioAnalysis.spec_totalValue env assets) ∧
    PortfolioAnalysis.calculate_total_value noDataEnv [assetX] = 1000 ∧
    (PortfolioAnalysis.calculate_portfolio_metrics [assetX]).assets.map
        (fun m => m.value) = [1000] := by
  refine ⟨fun env assets => ?_, ?_, ?_⟩
  · rw [PortfolioAnalysis.calculate_total_value, foldl_add_sum, zero_add,
      PortfolioAnalysis.spec_totalValue]
    refine congrArg List.sum (List.map_congr_left fun a _ => ?_)
    rw [currentPrice, latestClose_eq]
  · norm_num [PortfolioAnalysis.calculate_total_value, currentPrice, latestClose,
      noDataEnv, assetX]
  · norm_num [PortfolioAnalysis.calculate_portfolio_metrics, assetX, round2]

/-! ## C8: rebalancing suggestions -/

/-- The appending fold of the suggestion loop is the `filterMap` of the
per-target spec item. -/
theorem rebal_foldl (current : List (String × ℚ)) :
    ∀ (ts : List (String × ℚ)) (acc : List PortfolioAnalysis.Suggestion),
      ts.foldl (PortfolioAnalysis.rebalStep current) acc =
        acc ++ ts.filterMap (PortfolioAnalysis.rebalItem current)
  | [], acc => by simp
  | p :: ts, acc => by
      rw [List.foldl_cons, rebal_foldl current ts, List.filterMap_cons]
      rw [PortfolioAnalysis.rebalStep, PortfolioAnalysis.rebalItem]
      by_cases h5 : 5 < |p.2 - (lookupK current p.1).getD 0|
      · rw [if_pos h5, if_pos h5, if_congr sub_pos (Eq.refl "buy") (Eq.refl "sell")]
        simp
      · rw [if_neg h5, if_neg h5]

/-- C8: for every current allocation, the rebalancing suggestions are
exactly the spec's: one per target type with difference above the
5-point threshold, buy when below target, `adjustment_needed` the
absolute difference; the allocation `{stock: 100}` yields sell 40
stock, buy 30 bond, buy 10 etf. -/
theorem c8_rebalancing :
    (∀ current : List (String × ℚ),
        PortfolioAnalysis.generate_rebalancing_suggestions current =
          PortfolioAnalysis.spec_rebalancing current) ∧
    PortfolioAnalysis.generate_rebalancing_suggestions [("stock", 100)] =
      [⟨"stock", 100, 60, "sell", 40⟩, ⟨"bond", 0, 30, "buy", 30⟩,
       ⟨"etf", 0, 10, "buy", 10⟩] := by
  constructor
  · intro current
    rw [PortfolioAnalysis.generate_rebalancing_suggestions, rebal_foldl,
      List.nil_append, PortfolioAnalysis.spec_rebalancing]
  · norm_num +decide [PortfolioAnalysis.generate_rebalancing_suggestions,
      PortfolioAnalysis.targetAllocation, PortfolioAnalysis.rebalStep, round2]

/-! ## C10: unguarded gain/loss division in the live analyzer -/

/-- The per-asset loop of `analyze_portfolio` raises as soon as some
asset has a zero purchase price. -/
theorem mapE_assetStep_err (env : PriceEnv) :
    ∀ assets : List Asset, (∃ a ∈ assets, a.purchase_price = 0) →
      ∃ msg, mapE (AnalyzerLive.assetStep env) assets = .error msg := by
  intro assets
  induction assets with
  | nil => rintro ⟨a, ha, -⟩; exact absurd ha (List.not_mem_nil a)
  | cons a as ih =>
      rintro ⟨b, hb, hpp⟩
      rcases List.mem_cons.mp hb with rfl | hmem
      · exact ⟨"division by zero", by simp [AnalyzerLive.assetStep, pyDiv, hpp]⟩
      · obtain ⟨msg, hmsg⟩ := ih ⟨b, hmem, hpp⟩
        cases hhead : AnalyzerLive.assetStep env a with
        | ok v => exact ⟨msg, by simp [hhead, hmsg]⟩
        | error e => exact ⟨e, by simp [hhead]⟩

/-- C10: `analyze_portfolio` computes every asset's gain/loss as
`((current_price - purchase_price) / purchase_price) * 100`
unconditionally, so any portfolio containing an asset with a zero
purchase price makes the operation raise a division-by-zero fault
instead of returning a result. -/
theorem c10_zero_purchase_price_faults :
    ∀ (env : PriceEnv) (assets : List Asset),
      (∃ a ∈ assets, a.purchase_price = 0) →
      isErr (AnalyzerLive.analyze_portfolio env assets) = true := by
  intro env assets h
  obtain ⟨msg, hmsg⟩ := mapE_assetStep_err env assets h
  unfold AnalyzerLive.analyze_portfolio
  rw [hmsg]
  simp

/-- Witness for C10 at the concrete holding with purchase price 0. -/
theorem c10_witness :
    isErr (AnalyzerLive.analyze_portfolio noDataEnv [zeroPriceAsset]) = true :=
  c10_zero_purchase_price_faults noDataEnv [zeroPriceAsset]
    ⟨zeroPriceAsset, List.mem_singleton.mpr rfl, rfl⟩

/-! ## C4: division-by-zero guarding -/

/-- C4 counterexample: a legal portfolio with one zero-quantity holding
has zero total value, and `analyze_portfolio`'s asset-type allocation
comprehension divides by it unguarded; likewise `run_stress_test`
divides by a zero stored `total_value`.  Both operations fault instead
of yielding the fallback 0. -/
theorem c4_counterexample :
    isErr (AnalyzerLive.analyze_portfolio noDataEnv [zeroQtyAsset]) = true ∧
    isErr (AnalyzerLive.run_stress_test noDataEnv [assetX] 0
      AnalyzerLive.defaultScenarios) = true := by
  constructor
  · norm_num +decide [AnalyzerLive.analyze_portfolio, AnalyzerLive.assetStep,
      pyDiv, currentPrice, latestClose, noDataEnv, zeroQtyAsset, upsert]
  · norm_num +decide [AnalyzerLive.run_stress_test, AnalyzerLive.defaultScenarios,
      pyDiv, currentPrice, latestClose, noDataEnv, assetX]

/-- C4 (amended): the enumerated guards that do exist — zero market
variance in beta and zero stddev of excess returns in the Sharpe ratio
yield the fallback 0 — while the asset-type allocation of
`analyze_portfolio` and the `loss_percentage` of `run_stress_test`
divide by the portfolio total unguarded and fault when it is zero. -/
theorem c4_guards_amended :
    (∀ pr mr : List ℚ, PortfolioAnalysis.varPop mr = 0 →
        PortfolioAnalysis.calculate_beta pr mr = 0) ∧
    (∀ (rs : List ℚ) (rf : ℚ) (sf : ℚ → ℚ),
        sf (PortfolioAnalysis.varPop (PortfolioAnalysis.excessReturns rs rf)) = 0 →
        PortfolioAnalysis.calculate_sharpe rs rf sf = 0) ∧
    isErr (AnalyzerLive.analyze_portfolio noDataEnv [⟨"B", "B", 0, 50, "bond"⟩]) = true ∧
    isErr (AnalyzerLive.run_stress_test noDataEnv [⟨"C", "C", 2, 50, "stock"⟩] 0
      [("Market Crash", -(20/100))]) = true := by
  refine ⟨fun pr mr h => ?_, fun rs rf sf h => ?_, ?_, ?_⟩
  · simp [PortfolioAnalysis.calculate_beta, h]
  · simp [PortfolioAnalysis.calculate_sharpe, h]
  · norm_num +decide [AnalyzerLive.analyze_portfolio, AnalyzerLive.assetStep,
      pyDiv, currentPrice, latestClose, noDataEnv, upsert]
  · norm_num +decide [AnalyzerLive.run_stress_test, pyDiv, currentPrice,
      latestClose, noDataEnv]

/-- Witness for C4's amended guards at concrete inputs. -/
theorem c4_witness :
    PortfolioAnalysis.calculate_beta [1/100, 2/100] [3/100, 3/100] = 0 ∧
    PortfolioAnalysis.calculate_sharpe [1/100, 1/100] (2/100) (fun q => q) = 0 :=
  ⟨c4_guards_amended.1 _ _
      (by norm_num [PortfolioAnalysis.varPop, PortfolioAnalysis.meanQ]),
   c4_guards_amended.2.1 _ _ _
      (by norm_num [PortfolioAnalysis.varPop, PortfolioAnalysis.meanQ,
        PortfolioAnalysis.excessReturns])⟩

/-! ## C9: zero-shock stress scenario -/

/-- `round2` fixes 0. -/
theorem round2_zero : round2 0 = 0 := by norm_num [round2]

/-- A scenario whose shocks are all zero on the portfolio's symbols
leaves the accumulated scenario value unchanged. -/
theorem zero_shock_foldl (scenario : List (String × ℚ)) :
    ∀ (assets : List Asset) (acc : ℚ),
      (∀ a ∈ assets, ∀ pc, lookupK scenario a.symbol = some pc → pc = 0) →
      assets.foldl (fun acc a =>
        match lookupK scenario a.symbol with
        | some price_change => acc + a.quantity * a.purchase_price * price_change
        | none => acc) acc = acc
  | [], acc, _ => rfl
  | a :: as, acc, hz => by
      rw [List.foldl_cons]
      have tail := zero_shock_foldl scenario as
      cases hl : lookupK scenario a.symbol with
      | none =>
          simp only [hl]
          exact tail _ fun b hb => hz b (List.mem_cons_of_mem a hb)
      | some pc =>
          have hpc : pc = 0 := hz a (List.mem_cons_self a as) pc hl
          simp only [hl, hpc, mul_zero, add_zero]
          exact tail _ fun b hb => hz b (List.mem_cons_of_mem a hb)

/-- C9 counterexample: a legal portfolio (one zero-quantity holding)
has current value 0, and the zero-shock stress test then returns an
error result — not a scenario value equal to the current value with a
0% change. -/
theorem c9_counterexample :
    RiskManagement.stress_test noDataEnv [zeroQtyAsset] [[("A", 0)]] =
      .error "division by zero" := by
  norm_num +decide [RiskManagement.stress_test, RiskManagement.portfolioValue,
    pyDiv, currentPrice, latestClose, noDataEnv, zeroQtyAsset, lookupK]

/-- C9 (amended): for every portfolio whose current value is nonzero, a
stress scenario whose price shocks are all 0% reports a scenario
portfolio value equal to the (rounded) current value and a 0% change. -/
theorem c9_zero_shock :
    ∀ (env : PriceEnv) (assets : List Asset) (scenario : List (String × ℚ)),
      RiskManagement.portfolioValue env assets ≠ 0 →
      (∀ a ∈ assets, ∀ pc, lookupK scenario a.symbol = some pc → pc = 0) →
      RiskManagement.stress_test env assets [scenario] =
        .ok { current_value := round2 (RiskManagement.portfolioValue env assets)
              scenarios := [{ scenario := scenario
                              portfolio_value :=
                                round2 (RiskManagement.portfolioValue env assets)
                              change_percentage := 0 }] } := by
  intro env assets scenario hcv hz
  unfold RiskManagement.stress_test
  simp only [mapE_cons, mapE_nil, ok_bind, pure_except]
  rw [zero_shock_foldl scenario assets _ hz]
  rw [sub_self, pyDiv, if_neg hcv, zero_div]
  simp [round2_zero]

/-- Witness for C9's amended claim on the spec's example holding. -/
theorem c9_witness :
    RiskManagement.stress_test noDataEnv [assetX] [[("X", 0)]] =
      .ok ⟨1000, [⟨[("X", 0)], 1000, 0⟩]⟩ := by
  have h := c9_zero_shock noDataEnv [assetX] [("X", 0)]
    (by norm_num [RiskManagement.portfolioValue, currentPrice, latestClose,
      noDataEnv, assetX])
    (by
      intro a ha pc hpc
      rcases List.mem_singleton.mp ha with rfl
      rw [show assetX.symbol = "X" from rfl] at hpc
      simp [lookupK] at hpc
      exact hpc.symm)
  rw [h]
  norm_num [RiskManagement.portfolioValue, currentPrice, latestClose,
    noDataEnv, assetX, round2]

/-! ## C2 and C3: the data cache and its rate limiter -/

/-- Lookup after `setKey` finds the new binding. -/
theorem lookupK_setKey_self {α β : Type} [DecidableEq α] :
    ∀ (m : List (α × β)) (k : α) (v : β), lookupK (setKey m k v) k = some v
  | [], k, v => by simp [setKey]
  | (k', v') :: rest, k, v => by
      by_cases h : k' = k
      · simp [setKey, h]
      · simp [setKey, h, lookupK_setKey_self rest k v]

/-- The rate-limit sleep never moves the clock backwards. -/
theorem now_le_afterSleepTime (s : DataCache.CacheState) (sym : String) :
    s.now ≤ DataCache.afterSleepTime s sym := by
  unfold DataCache.afterSleepTime
  cases lookupK s.lastReq sym with
  | none => exact le_refl _
  | some last =>
      dsimp only
      split
      · next h => linarith
      · exact le_refl _

/-- Every fetch branch issues its fetch at the post-sleep time. -/
theorem fetchOutcome_fetchTime (s : DataCache.CacheState) (sym per : String)
    (f : Option (List ℚ)) :
    (DataCache.fetchOutcome s sym per f).fetchTime =
      some (DataCache.afterSleepTime s sym) := by
  unfold DataCache.fetchOutcome
  cases f with
  | none => rfl
  | some l => by_cases h : l ≠ [] <;> simp [h]

/-- The fetch branch returns exactly the fetched frame. -/
theorem fetchOutcome_data (s : DataCache.CacheState) (sym per : String)
    (f : Option (List ℚ)) : (DataCache.fetchOutcome s sym per f).data = f := by
  unfold DataCache.fetchOutcome
  cases f with
  | none => rfl
  | some l => by_cases h : l ≠ [] <;> simp [h]

/-- A successful non-empty fetch records the call's pre-sleep start
time as the symbol's last request time. -/
theorem fetchOutcome_lastReq (s : DataCache.CacheState) (sym per : String)
    (series : List ℚ) (hne : series ≠ []) :
    (DataCache.fetchOutcome s sym per (some series)).state.lastReq =
      setKey s.lastReq sym s.now := by
  unfold DataCache.fetchOutcome
  dsimp only
  rw [if_pos hne]

/-- A call that issued a fetch took the fetch branch. -/
theorem get_data_fetched (s : DataCache.CacheState) (sym per : String)
    (f : Option (List ℚ)) (τ : ℚ)
    (h : (DataCache.get_data s sym per f).fetchTime = some τ) :
    DataCache.get_data s sym per f = DataCache.fetchOutcome s sym per f := by
  unfold DataCache.get_data at h ⊢
  cases hl : lookupK s.store (sym, per) with
  | none => rfl
  | some dm =>
      obtain ⟨d, m⟩ := dm
      simp only [hl] at h ⊢
      by_cases hfresh : s.now - m < DataCache.cacheDuration
      · rw [if_pos hfresh] at h
        exact absurd h (by simp)
      · rw [if_neg hfresh]

/-- C2: a cache entry younger than `cache_duration` is returned exactly
as stored with no fetch; an entry at least `cache_duration` old makes
the call fetch. -/
theorem c2_cache_roundtrip :
    ∀ (s : DataCache.CacheState) (sym per : String) (series : List ℚ)
      (mtime : ℚ) (fetchRes : Option (List ℚ)),
      lookupK s.store (sym, per) = some (series, mtime) →
      (s.now - mtime < DataCache.cacheDuration →
        (DataCache.get_data s sym per fetchRes).data = some series ∧
        (DataCache.get_data s sym per fetchRes).fetchTime = none) ∧
      (DataCache.cacheDuration ≤ s.now - mtime →
        (DataCache.get_data s sym per fetchRes).fetchTime =
          some (DataCache.afterSleepTime s sym)) := by
  intro s sym per series mtime f hstore
  constructor
  · intro hfresh
    unfold DataCache.get_data
    simp only [hstore]
    rw [if_pos hfresh]
    exact ⟨rfl, rfl⟩
  · intro hstale
    unfold DataCache.get_data
    simp only [hstore]
    rw [if_neg (not_lt.mpr hstale)]
    exact fetchOutcome_fetchTime s sym per f

/-- Witness for C2: a 100-second-old entry is served from the cache; a
400-second-old entry triggers a fetch. -/
theorem c2_witness :
    ((DataCache.get_data ⟨[], [(("AAPL", "1y"), [3], 0)], 100⟩ "AAPL" "1y" none).data =
        some [3] ∧
      (DataCache.get_data ⟨[], [(("AAPL", "1y"), [3], 0)], 100⟩ "AAPL" "1y" none).fetchTime =
        none) ∧
    (DataCache.get_data ⟨[], [(("AAPL", "1y"), [3], 0)], 400⟩ "AAPL" "1y" none).fetchTime =
      some (DataCache.afterSleepTime ⟨[], [(("AAPL", "1y"), [3], 0)], 400⟩ "AAPL") := by
  constructor
  · exact (c2_cache_roundtrip ⟨[], [(("AAPL", "1y"), [3], 0)], 100⟩ "AAPL" "1y" [3] 0 none
      (by simp)).1 (by norm_num [DataCache.cacheDuration])
  · exact (c2_cache_roundtrip ⟨[], [(("AAPL", "1y"), [3], 0)], 400⟩ "AAPL" "1y" [3] 0 none
      (by simp)).2 (by norm_num [DataCache.cacheDuration])

/-- C3 counterexample: starting from an empty cache at time 0, a failed
fetch records no timestamp, so two consecutive back-to-back `get_data`
calls for the same symbol issue their fetches at times 0 and 0 — less
than `min_request_interval` apart. -/
theorem c3_counterexample :
    (DataCache.get_data ⟨[], [], 0⟩ "AAPL" "1d" none).fetchTime = some 0 ∧
    (DataCache.get_data (DataCache.get_data ⟨[], [], 0⟩ "AAPL" "1d" none).state
        "AAPL" "1d" (some [1])).fetchTime = some 0 ∧
    ¬ DataCache.minRequestInterval ≤ (0 : ℚ) - 0 := by
  refine ⟨?_, ?_, by norm_num [DataCache.minRequestInterval]⟩ <;>
    norm_num [DataCache.get_data, DataCache.fetchOutcome, DataCache.afterSleepTime]

/-- C3 (amended): when a `get_data` call's fetch succeeds with a
non-empty series, the recorded timestamp is that call's pre-sleep start
time, and the next fetch for the same symbol is issued at least
`min_request_interval` after that start; after a failed fetch no
separation is enforced, and the separation is measured from the call's
start rather than its fetch. -/
theorem c3_rate_limit_amended :
    ∀ (s : DataCache.CacheState) (sym p1 p2 : String)
      (f1 f2 : Option (List ℚ)) (series : List ℚ) (τ1 τ2 : ℚ),
      (DataCache.get_data s sym p1 f1).data = some series →
      series ≠ [] →
      (DataCache.get_data s sym p1 f1).fetchTime = some τ1 →
      (DataCache.get_data (DataCache.get_data s sym p1 f1).state sym p2 f2).fetchTime =
        some τ2 →
      s.now ≤ τ1 ∧ s.now + DataCache.minRequestInterval ≤ τ2 := by
  intro s sym p1 p2 f1 f2 series τ1 τ2 hdata hne hτ1 hτ2
  have hg : DataCache.get_data s sym p1 f1 = DataCache.fetchOutcome s sym p1 f1 :=
    get_data_fetched s sym p1 f1 τ1 hτ1
  rw [hg] at hdata hτ1 hτ2
  have hf1 : f1 = some series := by rw [← fetchOutcome_data s sym p1 f1]; exact hdata
  subst hf1
  have hτ1' : τ1 = DataCache.afterSleepTime s sym := by
    rw [fetchOutcome_fetchTime] at hτ1
    exact (Option.some.inj hτ1).symm
  refine ⟨hτ1' ▸ now_le_afterSleepTime s sym, ?_⟩
  have hg2 : DataCache.get_data (DataCache.fetchOutcome s sym p1 (some series)).state
      sym p2 f2 =
      DataCache.fetchOutcome (DataCache.fetchOutcome s sym p1 (some series)).state
        sym p2 f2 :=
    get_data_fetched _ sym p2 f2 τ2 hτ2
  rw [hg2, fetchOutcome_fetchTime] at hτ2
  have hτ2' : τ2 =
      DataCache.afterSleepTime (DataCache.fetchOutcome s sym p1 (some series)).state sym :=
    (Option.some.inj hτ2).symm
  rw [hτ2']
  unfold DataCache.afterSleepTime
  rw [fetchOutcome_lastReq s sym p1 series hne, lookupK_setKey_self]
  dsimp only
  split
  · exact le_refl _
  · next h => linarith [not_lt.mp h]

/-- Witness for C3's amended claim: after a successful fetch at time 0,
the next call's fetch for the same symbol (other period) is issued at
time 1 = start + `min_request_interval`. -/
theorem c3_witness :
    (DataCache.CacheState.mk [] [] 0).now ≤ 0 ∧
    (DataCache.CacheState.mk [] [] 0).now + DataCache.minRequestInterval ≤ 1 :=
  c3_rate_limit_amended ⟨[], [], 0⟩ "A" "1d" "1y" (some [5]) (some [6]) [5] 0 1
    (by norm_num [DataCache.get_data, DataCache.fetchOutcome, DataCache.afterSleepTime])
    (by simp)
    (by norm_num [DataCache.get_data, DataCache.fetchOutcome, DataCache.afterSleepTime])
    (by norm_num +decide [DataCache.get_data, DataCache.fetchOutcome,
      DataCache.afterSleepTime, DataCache.minRequestInterval, setKey])

/-! ## C7: efficient frontier sampling and the optimal portfolio -/

/-- Dividing every element by a constant divides the sum. -/
theorem sum_map_div (l : List ℚ) (c : ℚ) :
    (l.map (fun x => x / c)).sum = l.sum / c := by
  induction l with
  | nil => simp
  | cons a as ih => simp [ih, add_div]

/-- The running maximum-by-key fold returns an element of the list (or
the seed) whose key dominates the seed's and every listed element's. -/
theorem foldl_max_spec {α : Type} (f : α → ℚ) :
    ∀ (xs : List α) (b : α),
      ((xs.foldl (fun best y => if f best < f y then y else best) b) = b ∨
        (xs.foldl (fun best y => if f best < f y then y else best) b) ∈ xs) ∧
      f b ≤ f (xs.foldl (fun best y => if f best < f y then y else best) b) ∧
      ∀ y ∈ xs, f y ≤ f (xs.foldl (fun best y => if f best < f y then y else best) b)
  | [], b => ⟨Or.inl rfl, le_refl _, by simp⟩
  | x :: xs, b => by
      rw [List.foldl_cons]
      obtain ⟨hmem, hle, hall⟩ := foldl_max_spec f xs (if f b < f x then x else b)
      have hbb : f b ≤ f (if f b < f x then x else b) := by
        split
        · next h => exact le_of_lt h
        · exact le_refl _
      have hxb : f x ≤ f (if f b < f x then x else b) := by
        split
        · exact le_refl _
        · next h => exact not_lt.mp h
      refine ⟨?_, le_trans hbb hle, ?_⟩
      · rcases hmem with h | h
        · rw [h]
          split
          · exact Or.inr (List.mem_cons_self x xs)
          · exact Or.inl rfl
        · exact Or.inr (List.mem_cons_of_mem x h)
      · intro y hy
        rcases List.mem_cons.mp hy with rfl | hy'
        · exact le_trans hxb hle
        · exact hall y hy'

/-- Python's `max(xs, key=f)` on a non-empty list returns a member with
a maximal key. -/
theorem maxByKey_spec {α : Type} (f : α → ℚ) :
    ∀ xs : List α, xs ≠ [] →
      ∃ m, AnalyzerLive.maxByKey f xs = some m ∧ m ∈ xs ∧ ∀ y ∈ xs, f y ≤ f m
  | [], hne => absurd rfl hne
  | x :: xs, _ => by
      obtain ⟨hmem, hle, hall⟩ := foldl_max_spec f xs x
      refine ⟨_, rfl, ?_, ?_⟩
      · rcases hmem with h | h
        · rw [h]; exact List.mem_cons_self x xs
        · exact List.mem_cons_of_mem x h
      · intro y hy
        rcases List.mem_cons.mp hy with rfl | hy'
        · exact hle
        · exact hall y hy'

/-- C7: every sampled portfolio's weight vector is non-negative and
sums to exactly 1, and the reported optimal portfolio is a sample
attaining the maximum Sharpe ratio among all samples.  The raw draws
are non-negative vectors with positive sum, as `np.random.random`
produces (up to its measure-zero all-zeros draw, on which the code's
normalisation is undefined). -/
theorem c7_efficient_frontier :
    ∀ (meanReturns : List ℚ) (cov : List (List ℚ)) (sf : ℚ → ℚ)
      (draws : List (List ℚ)),
      draws ≠ [] →
      (∀ d ∈ draws, (∀ x ∈ d, 0 ≤ x) ∧ 0 < d.sum) →
      (∀ p ∈ (AnalyzerLive.calculate_efficient_frontier meanReturns cov sf draws).1,
          (∀ w ∈ p.weights, 0 ≤ w) ∧ p.weights.sum = 1) ∧
      ∃ opt,
        (AnalyzerLive.calculate_efficient_frontier meanReturns cov sf draws).2 =
          some opt ∧
        opt ∈ (AnalyzerLive.calculate_efficient_frontier meanReturns cov sf draws).1 ∧
        ∀ p ∈ (AnalyzerLive.calculate_efficient_frontier meanReturns cov sf draws).1,
          AnalyzerLive.sharpeOf AnalyzerLive.riskFreeRate p ≤
            AnalyzerLive.sharpeOf AnalyzerLive.riskFreeRate opt := by
  intro mr cov sf draws hne hdraws
  have hfst : (AnalyzerLive.calculate_efficient_frontier mr cov sf draws).1 =
      draws.map (AnalyzerLive.samplePortfolio mr cov sf) := rfl
  have hsnd : (AnalyzerLive.calculate_efficient_frontier mr cov sf draws).2 =
      AnalyzerLive.maxByKey (AnalyzerLive.sharpeOf AnalyzerLive.riskFreeRate)
        (draws.map (AnalyzerLive.samplePortfolio mr cov sf)) := rfl
  constructor
  · intro p hp
    rw [hfst] at hp
    obtain ⟨d, hd, rfl⟩ := List.mem_map.mp hp
    obtain ⟨hnn, hpos⟩ := hdraws d hd
    have hw : (AnalyzerLive.samplePortfolio mr cov sf d).weights =
        d.map (fun x => x / d.sum) := rfl
    rw [hw]
    constructor
    · intro w hwmem
      obtain ⟨x, hx, rfl⟩ := List.mem_map.mp hwmem
      exact div_nonneg (hnn x hx) (le_of_lt hpos)
    · rw [sum_map_div, div_self (ne_of_gt hpos)]
  · have hsne : draws.map (AnalyzerLive.samplePortfolio mr cov sf) ≠ [] := by
      simpa using hne
    obtain ⟨m, hm, hmem, hall⟩ :=
      maxByKey_spec (AnalyzerLive.sharpeOf AnalyzerLive.riskFreeRate) _ hsne
    refine ⟨m, ?_, ?_, ?_⟩
    · rw [hsnd]; exact hm
    · rw [hfst]; exact hmem
    · intro p hp
      rw [hfst] at hp
      exact hall p hp

/-- Witness for C7 at a one-asset, one-draw instance. -/
theorem c7_witness :
    (∀ p ∈ (AnalyzerLive.calculate_efficient_frontier [1/100] [[0]]
        (fun q => q) [[2]]).1, (∀ w ∈ p.weights, 0 ≤ w) ∧ p.weights.sum = 1) ∧
    ∃ opt,
      (AnalyzerLive.calculate_efficient_frontier [1/100] [[0]]
        (fun q => q) [[2]]).2 = some opt ∧
      opt ∈ (AnalyzerLive.calculate_efficient_frontier [1/100] [[0]]
        (fun q => q) [[2]]).1 ∧
      ∀ p ∈ (AnalyzerLive.calculate_efficient_frontier [1/100] [[0]]
          (fun q => q) [[2]]).1,
        AnalyzerLive.sharpeOf AnalyzerLive.riskFreeRate p ≤
          AnalyzerLive.sharpeOf AnalyzerLive.riskFreeRate opt :=
  c7_efficient_frontier [1/100] [[0]] (fun q => q) [[2]] (by simp)
    (by
      intro d hd
      rcases List.mem_singleton.mp hd with rfl
      refine ⟨fun x hx => ?_, by norm_num⟩
      rcases List.mem_singleton.mp hx with rfl
      norm_num)

/-! ## C6: asset allocation and the zero-value portfolio -/

/-- Lookup after a dict accumulation step. -/
theorem lookupK_upsert (k k' : String) (v : ℚ) :
    ∀ m : List (String × ℚ),
      lookupK (upsert m k v) k' =
        match lookupK m k' with
        | some w => if k = k' then some (w + v) else some w
        | none => if k = k' then some v else none
  | [] => by
      by_cases h : k = k' <;> simp [upsert, h]
  | (k₀, v₀) :: rest => by
      by_cases h₀ : k₀ = k
      · subst h₀
        by_cases h' : k₀ = k'
        · subst h'
          simp [upsert]
        · simp only [upsert, if_pos rfl, lookupK_cons, if_neg h']
          cases hlk : lookupK rest k' <;> simp [hlk, h']
      · by_cases h' : k₀ = k'
        · subst h'
          have hk : ¬ k = k₀ := fun h => h₀ h.symm
          simp [upsert, h₀, hk]
        · simp only [upsert, if_neg h₀, lookupK_cons, if_neg h',
            lookupK_upsert k k' v rest]

/-- Lookup through the final rounding map. -/
theorem lookupK_map_round (t : String) :
    ∀ m : List (String × ℚ),
      lookupK (m.map (fun p => (p.1, round2 p.2))) t = (lookupK m t).map round2
  | [] => rfl
  | (k, v) :: rest => by
      by_cases h : k = t <;> simp [h, lookupK_map_round t rest]

/-- Looking a type up in the accumulated per-type dict gives the sum of
the per-asset contributions of that type. -/
theorem lookupK_foldl_upsert (g : Asset → ℚ) :
    ∀ (assets : List Asset) (m : List (String × ℚ)) (t : String),
      lookupK (assets.foldl (fun m a => upsert m a.asset_type (g a)) m) t =
        match lookupK m t with
        | some w =>
            some (w + ((assets.filter (fun a => a.asset_type = t)).map g).sum)
        | none =>
            if PortfolioAnalysis.hasType assets t then
              some (((assets.filter (fun a => a.asset_type = t)).map g).sum)
            else none
  | [], m, t => by
      cases hlk : lookupK m t <;> simp [hlk, PortfolioAnalysis.hasType]
  | a :: as, m, t => by
      rw [List.foldl_cons,
        lookupK_foldl_upsert g as (upsert m a.asset_type (g a)) t,
        lookupK_upsert a.asset_type t (g a) m]
      by_cases hat : a.asset_type = t
      · cases hlk : lookupK m t with
        | some w =>
            simp [hlk, hat, List.filter_cons, PortfolioAnalysis.hasType, add_assoc]
        | none =>
            simp [hlk, hat, List.filter_cons, PortfolioAnalysis.hasType]
      · cases hlk : lookupK m t with
        | some w =>
            simp [hlk, hat, List.filter_cons, PortfolioAnalysis.hasType]
        | none =>
            simp [hlk, hat, List.filter_cons, PortfolioAnalysis.hasType]

/-- Factoring a common `/ total * 100` out of a sum of contributions. -/
theorem sum_map_div_mul (g : Asset → ℚ) (c k : ℚ) :
    ∀ l : List Asset, (l.map (fun a => g a / c * k)).sum = (l.map g).sum / c * k
  | [] => by simp
  | a :: as => by
      rw [List.map_cons, List.sum_cons, List.map_cons, List.sum_cons,
        sum_map_div_mul g c k as]
      ring

/-- C6: a portfolio of all-zero purchase prices with no live data has
zero total value and empty allocation; the allocation is empty exactly
when the total is zero, and otherwise maps each held asset type to its
percentage of the total, rounded to two decimals. -/
theorem c6_zero_total_allocation :
    ∀ (env : PriceEnv) (assets : List Asset),
      ((∀ a ∈ assets, a.purchase_price = 0) → (∀ sym per, env sym per = none) →
        PortfolioAnalysis.calculate_total_value env assets = 0 ∧
        PortfolioAnalysis.calculate_asset_allocation env assets = []) ∧
      (PortfolioAnalysis.calculate_total_value env assets = 0 →
        PortfolioAnalysis.calculate_asset_allocation env assets = []) ∧
      (0 < PortfolioAnalysis.calculate_total_value env assets →
        ∀ t, lookupK (PortfolioAnalysis.calculate_asset_allocation env assets) t =
          if PortfolioAnalysis.hasType assets t then
            some (round2 (PortfolioAnalysis.typeValue env assets t /
              PortfolioAnalysis.calculate_total_value env assets * 100))
          else none) := by
  intro env assets
  have hzero : PortfolioAnalysis.calculate_total_value env assets = 0 →
      PortfolioAnalysis.calculate_asset_allocation env assets = [] := by
    intro h
    unfold PortfolioAnalysis.calculate_asset_allocation
    rw [if_pos h]
  refine ⟨fun hpp henv => ?_, hzero, fun hpos t => ?_⟩
  · have htot : PortfolioAnalysis.calculate_total_value env assets = 0 := by
      unfold PortfolioAnalysis.calculate_total_value
      rw [foldl_add_sum, zero_add]
      refine List.sum_eq_zero fun x hx => ?_
      obtain ⟨a, ha, rfl⟩ := List.mem_map.mp hx
      rw [currentPrice, henv a.symbol "1d"]
      rw [latestClose, hpp a ha, mul_zero]
    exact ⟨htot, hzero htot⟩
  · have hne : PortfolioAnalysis.calculate_total_value env assets ≠ 0 := ne_of_gt hpos
    unfold PortfolioAnalysis.calculate_asset_allocation
    rw [if_neg hne]
    have hstep : PortfolioAnalysis.allocStep env
        (PortfolioAnalysis.calculate_total_value env assets) =
        fun m a => upsert m a.asset_type
          (if 0 < PortfolioAnalysis.calculate_total_value env assets then
            PortfolioAnalysis.valueOf env a /
              PortfolioAnalysis.calculate_total_value env assets * 100
          else 0) := rfl
    rw [hstep, lookupK_map_round, lookupK_foldl_upsert]
    rw [lookupK_nil]
    by_cases ht : PortfolioAnalysis.hasType assets t
    · rw [if_pos ht, if_pos ht]
      have hg : (assets.filter (fun a => a.asset_type = t)).map
            (fun a => if 0 < PortfolioAnalysis.calculate_total_value env assets then
              PortfolioAnalysis.valueOf env a /
                PortfolioAnalysis.calculate_total_value env assets * 100
            else 0) =
          (assets.filter (fun a => a.asset_type = t)).map
            (fun a => PortfolioAnalysis.valueOf env a /
              PortfolioAnalysis.calculate_total_value env assets * 100) :=
        List.map_congr_left fun a _ => if_pos hpos
      rw [hg, sum_map_div_mul]
      simp [PortfolioAnalysis.typeValue]
    · rw [if_neg ht, if_neg ht]
      simp

/-- Witness for C6: the all-zero-price portfolio has zero total and
empty allocation; the one-stock example portfolio allocates 100% to
"stock". -/
theorem c6_witness :
    (PortfolioAnalysis.calculate_total_value noDataEnv [zeroPriceAsset] = 0 ∧
      PortfolioAnalysis.calculate_asset_allocation noDataEnv [zeroPriceAsset] = []) ∧
    lookupK (PortfolioAnalysis.calculate_asset_allocation noDataEnv [assetX]) "stock" =
      some 100 := by
  constructor
  · exact (c6_zero_total_allocation noDataEnv [zeroPriceAsset]).1
      (fun a ha => by rcases List.mem_singleton.mp ha with rfl; rfl)
      (fun _ _ => rfl)
  · have h := (c6_zero_total_allocation noDataEnv [assetX]).2.2
      (by norm_num [PortfolioAnalysis.calculate_total_value, currentPrice,
        latestClose, noDataEnv, assetX]) "stock"
    rw [h]
    norm_num +decide [PortfolioAnalysis.hasType, PortfolioAnalysis.typeValue,
      PortfolioAnalysis.valueOf, PortfolioAnalysis.calculate_total_value,
      currentPrice, latestClose, noDataEnv, assetX, round2]

/-! ## C5: Value-at-Risk versus confidence level -/

/-- `getD` is monotone in the index on an ascending list (defaults
irrelevant while in bounds). -/
theorem sorted_getD_mono (xs : List ℚ) (hs : xs.Sorted (· ≤ ·)) {i j : ℕ}
    (hij : i ≤ j) (hj : j < xs.length) (d e : ℚ) : xs.getD i d ≤ xs.getD j e := by
  have hlt : i < xs.length := Nat.lt_of_le_of_lt hij hj
  rw [List.getD_eq_getElem xs d hlt, List.getD_eq_getElem xs e hj]
  have h := hs.rel_get_of_le (a := ⟨i, hlt⟩) (b := ⟨j, hj⟩) hij
  simpa using h

/-- The right interpolation endpoint dominates the left one. -/
theorem interp_endpoints (xs : List ℚ) (hs : xs.Sorted (· ≤ ·)) (i : ℕ) :
    xs.getD i 0 ≤ xs.getD (i + 1) (xs.getD i 0) := by
  by_cases h : i + 1 < xs.length
  · exact sorted_getD_mono xs hs (Nat.le_succ i) h 0 (xs.getD i 0)
  · rw [List.getD_eq_default _ _ (not_lt.mp h)]

/-- Linear interpolation at `h` is at least the left sample. -/
theorem interp_lower (xs : List ℚ) (hs : xs.Sorted (· ≤ ·)) (h : ℚ) :
    xs.getD (⌊h⌋).toNat 0 ≤ AnalyzerLive.interpAt xs h := by
  unfold AnalyzerLive.interpAt
  dsimp only
  have hg0 : (0 : ℚ) ≤ h - ⌊h⌋ := by linarith [Int.floor_le h]
  have hb := interp_endpoints xs hs (⌊h⌋).toNat
  nlinarith [mul_nonneg hg0 (sub_nonneg.mpr hb)]

/-- Linear interpolation at `h` is at most the right sample. -/
theorem interp_upper (xs : List ℚ) (hs : xs.Sorted (· ≤ ·)) (h : ℚ) :
    AnalyzerLive.interpAt xs h ≤ xs.getD ((⌊h⌋).toNat + 1) (xs.getD (⌊h⌋).toNat 0) := by
  unfold AnalyzerLive.interpAt
  dsimp only
  have hg1 : h - ⌊h⌋ < 1 := by linarith [Int.lt_floor_add_one h]
  have hb := interp_endpoints xs hs (⌊h⌋).toNat
  nlinarith [mul_nonneg (sub_nonneg.mpr (le_of_lt hg1)) (sub_nonneg.mpr hb)]

/-- Linear interpolation over an ascending list is monotone in the
position, for positions within `[0, length - 1]`. -/
theorem interpAt_mono (xs : List ℚ) (hs : xs.Sorted (· ≤ ·)) (hne : xs ≠ [])
    (h1 h2 : ℚ) (h10 : 0 ≤ h1) (h12 : h1 ≤ h2) (h2n : h2 ≤ (xs.length : ℚ) - 1) :
    AnalyzerLive.interpAt xs h1 ≤ AnalyzerLive.interpAt xs h2 := by
  have hlen : 0 < xs.length := List.length_pos.mpr hne
  have hf10 : 0 ≤ ⌊h1⌋ := Int.le_floor.mpr (by exact_mod_cast h10)
  have hf12 : ⌊h1⌋ ≤ ⌊h2⌋ := Int.floor_le_floor h12
  have hf20 : 0 ≤ ⌊h2⌋ := le_trans hf10 hf12
  have hf2n : ⌊h2⌋ ≤ (xs.length : ℤ) - 1 := by
    have hq : (⌊h2⌋ : ℚ) ≤ (xs.length : ℚ) - 1 := le_trans (Int.floor_le h2) h2n
    exact_mod_cast hq
  have e1 : ((⌊h1⌋).toNat : ℤ) = ⌊h1⌋ := Int.toNat_of_nonneg hf10
  have e2 : ((⌊h2⌋).toNat : ℤ) = ⌊h2⌋ := Int.toNat_of_nonneg hf20
  have hi2n : (⌊h2⌋).toNat < xs.length := by omega
  have hi1n : (⌊h1⌋).toNat < xs.length := by omega
  rcases eq_or_lt_of_le hf12 with heq | hlt
  · unfold AnalyzerLive.interpAt
    dsimp only
    rw [← heq]
    have hb := interp_endpoints xs hs (⌊h1⌋).toNat
    nlinarith [mul_le_mul_of_nonneg_right (show h1 - ⌊h1⌋ ≤ h2 - ⌊h1⌋ by linarith)
      (sub_nonneg.mpr hb)]
  · have hi12 : (⌊h1⌋).toNat + 1 ≤ (⌊h2⌋).toNat := by omega
    calc AnalyzerLive.interpAt xs h1
        ≤ xs.getD ((⌊h1⌋).toNat + 1) (xs.getD (⌊h1⌋).toNat 0) :=
          interp_upper xs hs h1
      _ ≤ xs.getD (⌊h2⌋).toNat 0 := sorted_getD_mono xs hs hi12 hi2n _ _
      _ ≤ AnalyzerLive.interpAt xs h2 := interp_lower xs hs h2

/-- `np.percentile` is monotone in the percentile rank. -/
theorem percentileNp_mono (xs : List ℚ) (hne : xs ≠ []) (q1 q2 : ℚ)
    (h0 : 0 ≤ q1) (h12 : q1 ≤ q2) (h100 : q2 ≤ 100) :
    AnalyzerLive.percentileNp xs q1 ≤ AnalyzerLive.percentileNp xs q2 := by
  unfold AnalyzerLive.percentileNp
  have hsorted : (xs.insertionSort (· ≤ ·)).Sorted (· ≤ ·) :=
    List.sorted_insertionSort (· ≤ ·) xs
  have hlen : (xs.insertionSort (· ≤ ·)).length = xs.length :=
    (List.perm_insertionSort (· ≤ ·) xs).length_eq
  have hsne : xs.insertionSort (· ≤ ·) ≠ [] := by
    intro hnil
    apply hne
    have h0len : xs.length = 0 := by rw [← hlen, hnil]; rfl
    exact List.length_eq_zero.mp h0len
  have hlenq : (1 : ℚ) ≤ ((xs.insertionSort (· ≤ ·)).length : ℚ) := by
    exact_mod_cast List.length_pos.mpr hsne
  apply interpAt_mono _ hsorted hsne
  · exact mul_nonneg (div_nonneg h0 (by norm_num)) (by linarith)
  · exact mul_le_mul_of_nonneg_right ((div_le_div_iff_of_pos_right (by norm_num)).mpr h12)
      (by linarith)
  · have hq2 : q2 / 100 ≤ 1 := by linarith [(div_le_one (show (0:ℚ) < 100 by norm_num)).mpr h100]
    nlinarith

/-- C5 counterexample: on the all-positive return series
`[0.01, 0.02, 0.03]` with portfolio value 100, the VaR magnitude at the
higher 99% confidence level is strictly smaller than at 50%. -/
theorem c5_counterexample :
    AnalyzerLive.calculate_var_core [1/100, 2/100, 3/100] 100 (99/100) <
      AnalyzerLive.calculate_var_core [1/100, 2/100, 3/100] 100 (1/2) := by
  have hp1 : AnalyzerLive.percentileNp [1/100, 2/100, 3/100] ((1 - 99/100) * 100) =
      51/5000 := by
    norm_num [AnalyzerLive.percentileNp, AnalyzerLive.interpAt,
      List.insertionSort, List.orderedInsert]
  have hp2 : AnalyzerLive.percentileNp [1/100, 2/100, 3/100] ((1 - 1/2) * 100) =
      2/100 := by
    norm_num [AnalyzerLive.percentileNp, AnalyzerLive.interpAt,
      List.insertionSort, List.orderedInsert]
  unfold AnalyzerLive.calculate_var_core
  rw [hp1, hp2, abs_of_nonneg (by norm_num), abs_of_nonneg (by norm_num)]
  norm_num

/-- C5 (amended): for a fixed return series and a non-negative
portfolio value, whenever the tail percentiles at both confidence
levels are non-positive (the loss-tail case), the VaR magnitude at the
higher confidence level is at least the VaR magnitude at the lower
one. -/
theorem c5_var_monotone :
    ∀ (rets : List ℚ) (value c1 c2 : ℚ),
      rets ≠ [] → 0 ≤ value → 0 ≤ c2 → c2 ≤ c1 → c1 ≤ 1 →
      AnalyzerLive.percentileNp rets ((1 - c1) * 100) ≤ 0 →
      AnalyzerLive.percentileNp rets ((1 - c2) * 100) ≤ 0 →
      AnalyzerLive.calculate_var_core rets value c2 ≤
        AnalyzerLive.calculate_var_core rets value c1 := by
  intro rets V c1 c2 hne hV hc2 hcc hc1 hp1 hp2
  have hq : AnalyzerLive.percentileNp rets ((1 - c1) * 100) ≤
      AnalyzerLive.percentileNp rets ((1 - c2) * 100) :=
    percentileNp_mono rets hne _ _ (by nlinarith) (by nlinarith) (by nlinarith)
  unfold AnalyzerLive.calculate_var_core
  rw [abs_mul, abs_mul, abs_of_nonneg hV]
  refine mul_le_mul_of_nonneg_right ?_ hV
  rw [abs_of_nonpos hp2, abs_of_nonpos hp1]
  linarith

/-- Witness for C5's amended claim on a loss-tailed series. -/
theorem c5_witness :
    AnalyzerLive.calculate_var_core [-(2/10), -(1/10), 1/10] 100 (1/2) ≤
      AnalyzerLive.calculate_var_core [-(2/10), -(1/10), 1/10] 100 (99/100) :=
  c5_var_monotone [-(2/10), -(1/10), 1/10] 100 (99/100) (1/2)
    (by simp) (by norm_num) (by norm_num) (by norm_num) (by norm_num)
    (by norm_num [AnalyzerLive.percentileNp, AnalyzerLive.interpAt,
      List.insertionSort, List.orderedInsert])
    (by norm_num [AnalyzerLive.percentileNp, AnalyzerLive.interpAt,
      List.insertionSort, List.orderedInsert])

end Invest
